import Mathlib

/-!
# octosync: local-state inspection and reconciliation

A shallow embedding of `main.go` of `rtlong/octosync`.  The program reads the
process environment, one command-line argument, the working directory and the
local filesystem; each of these is passed explicitly.  Go's `error` interface
is `Option GoError` (`none` is `nil`).
-/

namespace Octosync

/-! ## The parts of the Go standard library the program calls -/

/-- A `syscall.Errno` value. -/
abbrev Errno := Nat

/-- The constant `syscall.ENOENT`. -/
def ENOENT : Errno := 2

/-- The constant `syscall.EACCES`. -/
def EACCES : Errno := 13

/-- The constant `syscall.ENOTDIR`. -/
def ENOTDIR : Errno := 20

/-- The method `Errno.Error`: the text of the errno table, of which the entries
for the codes named above are kept here, and `errno N` for a code without an
entry. -/
def errnoText (e : Errno) : String :=
  if e = ENOENT then "no such file or directory"
  else if e = EACCES then "permission denied"
  else if e = ENOTDIR then "not a directory"
  else "errno " ++ toString e

/-- The dynamic values of Go's `error` interface that occur in the program:
an `*os.PathError`, which is what `os.Stat` and `os.Getwd` fail with, and the
value `fmt.Errorf` builds, which carries its message only. -/
inductive GoError where
  | pathError (op : String) (path : String) (errno : Errno)
  | errorString (msg : String)
  deriving DecidableEq, Repr

/-- The method `Error()` of an error value. -/
def GoError.Error : GoError → String
  | .pathError op path errno => op ++ " " ++ path ++ ": " ++ errnoText errno
  | .errorString msg => msg

/-- The function `os.IsNotExist`: it unwraps a `*PathError` and compares the
underlying error with `syscall.ENOENT`; `nil` and every other error give
`false`. -/
def osIsNotExist : Option GoError → Bool
  | some (.pathError _ _ errno) => errno == ENOENT
  | some (.errorString _) => false
  | none => false

/-- The part of `os.FileInfo` the program looks at, and the file's size. -/
structure FileInfo where
  IsDir : Bool
  Size : Nat := 0
  deriving DecidableEq, Repr

/-- A filesystem state, as the `stat` system call sees it: for every path
either the file's information or the errno the call fails with. -/
abbrev FileSystem := String → Except Errno FileInfo

/-- Equality of two results of a call that can fail is decidable when it is so
for the values and for the errors. -/
instance exceptDecEq {ε α : Type} [DecidableEq ε] [DecidableEq α] : DecidableEq (Except ε α)
  | .ok a, .ok b =>
    if h : a = b then isTrue (by rw [h]) else isFalse (fun hc => h (by cases hc; rfl))
  | .error a, .error b =>
    if h : a = b then isTrue (by rw [h]) else isFalse (fun hc => h (by cases hc; rfl))
  | .ok _, .error _ => isFalse (fun hc => by cases hc)
  | .error _, .ok _ => isFalse (fun hc => by cases hc)

/-- The function `os.Stat`: a failing system call is wrapped in a
`*PathError` with operation `stat` and the path asked for. -/
def osStat (fs : FileSystem) (name : String) : Except GoError FileInfo :=
  match fs name with
  | .ok info => .ok info
  | .error errno => .error (.pathError "stat" name errno)

/-- The inner loop of `path.Clean` that backs the write index up over the
last element of the buffer: from `w`, down to `dotdot` or to the index of a
slash. -/
def cleanBackUp (out : List Char) (dotdot : Nat) : Nat → Nat
  | 0 => 0
  | w + 1 =>
    if dotdot < w + 1 ∧ out.getD (w + 1) 'x' ≠ '/' then cleanBackUp out dotdot w
    else w + 1

/-- The main loop of `path.Clean`: `r` is the read index into `path`, `out`
the bytes written so far (`out.w` is its length), `dotdot` the index where a
`..` must stop.  Every round advances `r`, so `path.length` rounds are
enough; the first argument counts them down. -/
def cleanLoop (path : List Char) (rooted : Bool) :
    Nat → Nat → List Char → Nat → List Char
  | 0, _, out, _ => out
  | fuel + 1, r, out, dotdot =>
    let n := path.length
    if r < n then
      if path.getD r 'x' = '/' then
        cleanLoop path rooted fuel (r + 1) out dotdot
      else if path.getD r 'x' = '.' ∧ (r + 1 = n ∨ path.getD (r + 1) 'x' = '/') then
        cleanLoop path rooted fuel (r + 1) out dotdot
      else if path.getD r 'x' = '.' ∧ path.getD (r + 1) 'x' = '.' ∧
          (r + 2 = n ∨ path.getD (r + 2) 'x' = '/') then
        if dotdot < out.length then
          let w := cleanBackUp out dotdot (out.length - 1)
          cleanLoop path rooted fuel (r + 2) (out.take w) dotdot
        else if rooted = false then
          let out1 := if 0 < out.length then out ++ ['/'] else out
          let out2 := out1 ++ ['.', '.']
          cleanLoop path rooted fuel (r + 2) out2 out2.length
        else
          cleanLoop path rooted fuel (r + 2) out dotdot
      else
        let out1 :=
          if (rooted = true ∧ out.length ≠ 1) ∨ (rooted = false ∧ out.length ≠ 0) then
            out ++ ['/']
          else out
        let elem := (path.drop r).takeWhile (fun c => c ≠ '/')
        cleanLoop path rooted fuel (r + elem.length) (out1 ++ elem) dotdot
    else out

/-- The function `path.Clean`. -/
def pathClean (path : String) : String :=
  if path = "" then "."
  else
    let p := path.data
    let rooted : Bool := p.head? = some '/'
    let out := cleanLoop p rooted p.length (if rooted then 1 else 0)
      (if rooted then ['/'] else []) (if rooted then 1 else 0)
    if out.length = 0 then "." else String.mk out

/-- The function `path.Join` at two elements: empty elements are dropped, the
rest joined with a slash and cleaned. -/
def pathJoin (a b : String) : String :=
  if a ≠ "" then pathClean (a ++ "/" ++ b)
  else if b ≠ "" then pathClean b
  else ""

/-- The function `path.Base`: trailing slashes are dropped, then everything
up to the last slash. -/
def pathBase (path : String) : String :=
  if path = "" then "."
  else
    let p := (path.data.reverse.dropWhile (fun c => c = '/')).reverse
    let q := (p.reverse.takeWhile (fun c => c ≠ '/')).reverse
    if q = [] then "/" else String.mk q

/-! ## `main.go` -/

/-- The constant `githubTokenEnvVar`. -/
def githubTokenEnvVar : String := "GITHUB_TOKEN"

/-- What `repoIsCloned` returns, `isCloned` and `err`, together with the paths
it passed to `os.Stat`, in call order. -/
structure Inspection where
  isCloned : Bool
  err : Option GoError
  statted : List String
  deriving DecidableEq, Repr

/-- The function `repoIsCloned`. -/
def repoIsCloned (fs : FileSystem) (name : String) : Inspection :=
  let gitDir := pathJoin name ".git"
  match osStat fs gitDir with
  | .ok stat =>
    if stat.IsDir then
      { isCloned := true, err := none, statted := [gitDir] }
    else
      { isCloned := false,
        err := some (.errorString
          ("Git-dir path exists but is not a directory: " ++ name ++ "/.git")),
        statted := [gitDir] }
  | .error err =>
    if osIsNotExist (some err) then
      match osStat fs name with
      | .ok _ =>
        { isCloned := false,
          err := some (.errorString
            ("Clone directory already exists but is not a git repository: " ++ name)),
          statted := [gitDir, name] }
      | .error err2 =>
        if osIsNotExist (some err2) then
          { isCloned := false, err := none, statted := [gitDir, name] }
        else
          { isCloned := false, err := some err2, statted := [gitDir, name] }
    else
      { isCloned := false, err := some err, statted := [gitDir] }

/-- The function `orgName`: `argOrgName` is the value of the command-line
argument variable (empty when no argument was given), `getwd` what `os.Getwd`
returns.  A failing `os.Getwd` makes the function panic with that error,
which is the `error` result here. -/
def orgName (argOrgName : String) (getwd : Except GoError String) : Except GoError String :=
  if argOrgName.length > 0 then .ok argOrgName
  else
    match getwd with
    | .error err => .error err
    | .ok cwd => .ok (pathBase cwd)

/-- The process environment: the value of each variable that is set. -/
abbrev Environ := String → Option String

/-- The function `os.Getenv`: the value of the variable, empty when the
variable is not set. -/
def osGetenv (env : Environ) (key : String) : String :=
  (env key).getD ""

/-- The function `getGithubToken`, returning `(value, err)`. -/
def getGithubToken (env : Environ) : String × Option GoError :=
  let value := osGetenv env githubTokenEnvVar
  if value ≠ "" then (value, none)
  else
    (value, some (.errorString
      ("You must set the " ++ githubTokenEnvVar ++ " variable with a Github access token")))

/-- The fields of `github.Repository` that the program and its tests use;
both are pointers in Go, `none` is `nil`. -/
structure Repository where
  ID : Option Int := none
  Name : Option String := none
  deriving DecidableEq, Repr

/-- The struct `github.ListOptions`. -/
structure ListOptions where
  Page : Int := 0
  PerPage : Int := 0
  deriving DecidableEq, Repr

/-- The struct `github.RepositoryListByOrgOptions`: its field `Type` (here
`Type_`) and the embedded `ListOptions`. -/
structure RepositoryListByOrgOptions where
  Type_ : String := ""
  ListOptions : ListOptions := {}
  deriving DecidableEq, Repr

/-- The pagination fields of `github.Response`. -/
structure Response where
  NextPage : Int := 0
  PrevPage : Int := 0
  FirstPage : Int := 0
  LastPage : Int := 0
  deriving DecidableEq, Repr

/-- The interface `RepositoriesService`: its one method `ListByOrg`, returning
the repositories, the response (a pointer, `none` is `nil`) and the error. -/
structure RepositoriesService where
  ListByOrg : String → RepositoryListByOrgOptions →
    List Repository × Option Response × Option GoError

/-- The function `getRepos`. -/
def getRepos (org : String) (repoService : RepositoriesService) :
    List Repository × Option Response × Option GoError :=
  repoService.ListByOrg org { ListOptions := { PerPage := 50 } }

/-- What the loop of `main` leaves behind: the messages given to the logger,
in order (without the logger's time stamp), and whether the loop stopped in a
panic. -/
structure LoopResult where
  log : List String
  panicked : Bool
  deriving DecidableEq, Repr

/-- The loop over `repos` at the end of `main`, started with the messages
logged so far.  Dereferencing a `nil` name panics. -/
def mainLoop (fs : FileSystem) : List Repository → List String → LoopResult
  | [], log => { log := log, panicked := false }
  | repo :: rest, log =>
    match repo.Name with
    | none => { log := log, panicked := true }
    | some name =>
      let log1 := log ++ [name]
      let r := repoIsCloned fs name
      let log2 :=
        match r.err with
        | some err => log1 ++ ["  error: " ++ err.Error]
        | none =>
          if r.isCloned then log1 ++ ["  would fetch"]
          else log1 ++ ["  would clone"]
      mainLoop fs rest log2

/-! ## The vocabulary of the specification -/

/-- The decision for one repository (`SyncAction` of the specification). -/
inductive SyncAction where
  | Clone
  | Fetch
  | Error (reason : GoError)
  deriving DecidableEq, Repr

/-- The decision the specification assigns to a result of `repoIsCloned`:
an error when the error is not `nil`, else fetch for `true` and clone for
`false`. -/
def SyncAction.ofInspection (r : Inspection) : SyncAction :=
  match r.err, r.isCloned with
  | some err, _ => .Error err
  | none, true => .Fetch
  | none, false => .Clone

/-- The message with which `main` reports a decision. -/
def SyncAction.report : SyncAction → String
  | .Clone => "  would clone"
  | .Fetch => "  would fetch"
  | .Error reason => "  error: " ++ reason.Error

/-- The two messages the loop logs for one repository name: the name, then the
report of the decision. -/
def reportLines (fs : FileSystem) (name : String) : List String :=
  [name, (SyncAction.ofInspection (repoIsCloned fs name)).report]

/-- A path exists in a filesystem state as a directory. -/
def FileSystem.isDirectory (fs : FileSystem) (p : String) : Prop :=
  ∃ info, fs p = .ok info ∧ info.IsDir = true

/-- A two-page listing of an organization, 50 to a page in principle: the
first page (asked for as page 0 or 1) holds repository `first` and points to
page 2, which holds repository `second` and is the last. -/
def twoPageService (first second : Repository) : RepositoriesService where
  ListByOrg := fun _ opts =>
    if opts.ListOptions.Page ≤ 1 then
      ([first], some { NextPage := 2, LastPage := 2 }, none)
    else if opts.ListOptions.Page = 2 then
      ([second], some { PrevPage := 1, FirstPage := 1 }, none)
    else ([], some { PrevPage := 2, FirstPage := 1 }, none)

/-- A filesystem state given by a list of directories and a list of plain
files; every other path is not found. -/
def fsOf (dirs files : List String) : FileSystem := fun p =>
  if p ∈ dirs then .ok { IsDir := true }
  else if p ∈ files then .ok { IsDir := false }
  else .error ENOENT

/-! ## `path.Join` at a plain name

One round of `cleanLoop` at a time: past the end of the path, at a slash, and
at the start of an ordinary element. -/

theorem cleanLoop_done (p : List Char) (rooted : Bool) (f r : Nat) (out : List Char) (dd : Nat)
    (hr : p.length ≤ r) : cleanLoop p rooted f r out dd = out := by
  cases f with
  | zero => rfl
  | succ f => simp [cleanLoop, Nat.not_lt.mpr hr]

theorem cleanLoop_slash (p : List Char) (rooted : Bool) (f r : Nat) (out : List Char) (dd : Nat)
    (hr : r < p.length) (h : p.getD r 'x' = '/') :
    cleanLoop p rooted (f + 1) r out dd = cleanLoop p rooted f (r + 1) out dd := by
  rw [cleanLoop]
  simp only [hr, if_true, h]

theorem cleanLoop_elem (p : List Char) (f r : Nat) (out : List Char) (dd : Nat)
    (hr : r < p.length) (h1 : p.getD r 'x' ≠ '/')
    (h2 : ¬ (p.getD r 'x' = '.' ∧ (r + 1 = p.length ∨ p.getD (r + 1) 'x' = '/')))
    (h3 : ¬ (p.getD r 'x' = '.' ∧ p.getD (r + 1) 'x' = '.' ∧
      (r + 2 = p.length ∨ p.getD (r + 2) 'x' = '/'))) :
    cleanLoop p false (f + 1) r out dd =
      cleanLoop p false f (r + ((p.drop r).takeWhile (fun c => c ≠ '/')).length)
        ((if out.length ≠ 0 then out ++ ['/'] else out) ++
          (p.drop r).takeWhile (fun c => c ≠ '/')) dd := by
  rw [cleanLoop]
  simp only [hr, if_true, h1, if_false, h2, h3]
  simp

theorem elem_length_pos (p : List Char) (r : Nat) (hr : r < p.length)
    (h : p.getD r 'x' ≠ '/') :
    1 ≤ ((p.drop r).takeWhile (fun c => c ≠ '/')).length := by
  rw [List.getD_eq_getElem _ _ hr] at h
  rw [List.drop_eq_getElem_cons hr, List.takeWhile_cons]
  simp [h]

/-- The rounds `pathClean` allows are enough: once the count covers the rest
of the path, a larger count changes nothing, so the loop never stops for want
of rounds. -/
theorem cleanLoop_fuel (p : List Char) (rooted : Bool) :
    ∀ (f g r : Nat) (out : List Char) (dd : Nat), p.length ≤ r + f → p.length ≤ r + g →
      cleanLoop p rooted f r out dd = cleanLoop p rooted g r out dd := by
  intro f
  induction f with
  | zero =>
    intro g r out dd hf _
    rw [cleanLoop_done p rooted 0 r out dd (by omega),
      cleanLoop_done p rooted g r out dd (by omega)]
  | succ f ih =>
    intro g r out dd hf hg
    cases g with
    | zero =>
      rw [cleanLoop_done p rooted _ r out dd (by omega),
        cleanLoop_done p rooted 0 r out dd (by omega)]
    | succ g =>
      by_cases hr : r < p.length
      · rw [cleanLoop, cleanLoop]
        simp only [hr, if_true]
        split_ifs
        all_goals first
          | exact ih _ _ _ _ (by omega) (by omega)
          | (have hpos := elem_length_pos p r hr (by assumption)
             exact ih _ _ _ _ (by omega) (by omega))
      · rw [cleanLoop_done p rooted _ r out dd (by omega),
          cleanLoop_done p rooted _ r out dd (by omega)]

theorem takeWhile_to_slash (l s : List Char) (hs : '/' ∉ l) :
    (l ++ '/' :: s).takeWhile (fun c => c ≠ '/') = l := by
  induction l with
  | nil => simp
  | cons c t ih =>
    simp only [List.mem_cons, not_or] at hs
    have hc : c ≠ '/' := fun h => hs.1 h.symm
    have := ih hs.2
    simp only [List.cons_append, List.takeWhile_cons, hc, ne_eq, not_false_eq_true,
      decide_True, if_true, this]

theorem cleanLoop_plain (l : List Char) (hne : l ≠ []) (hs : '/' ∉ l)
    (h1 : l ≠ ['.']) (h2 : l ≠ ['.', '.']) :
    cleanLoop (l ++ ['/', '.', 'g', 'i', 't']) false (l.length + 5) 0 [] 0 =
      l ++ ['/', '.', 'g', 'i', 't'] := by
  have hlen : (l ++ ['/', '.', 'g', 'i', 't']).length = l.length + 5 := by simp
  have hpos : 0 < l.length := List.length_pos.mpr hne
  have g0 : ∀ i, i < l.length → (l ++ ['/', '.', 'g', 'i', 't']).getD i 'x' ≠ '/' := by
    intro i hi hc
    rw [List.getD_append _ _ _ _ hi] at hc
    rw [List.getD_eq_getElem _ _ hi] at hc
    exact hs (hc ▸ List.getElem_mem hi)
  have gk : ∀ k, (l ++ ['/', '.', 'g', 'i', 't']).getD (l.length + k) 'x' =
      ['/', '.', 'g', 'i', 't'].getD k 'x' := by
    intro k
    rw [List.getD_append_right _ _ _ _ (Nat.le_add_right _ _)]
    simp
  have e1 : List.takeWhile (fun c => c ≠ '/')
      (List.drop 0 (l ++ ['/', '.', 'g', 'i', 't'])) = l := by
    rw [List.drop_zero]
    exact takeWhile_to_slash l _ hs
  have e2 : List.takeWhile (fun c => c ≠ '/')
      (List.drop (l.length + 1) (l ++ ['/', '.', 'g', 'i', 't'])) = ['.', 'g', 'i', 't'] := by
    rw [List.drop_append]
    decide
  have c2 : ¬ ((l ++ ['/', '.', 'g', 'i', 't']).getD 0 'x' = '.' ∧
      (0 + 1 = (l ++ ['/', '.', 'g', 'i', 't']).length ∨
        (l ++ ['/', '.', 'g', 'i', 't']).getD (0 + 1) 'x' = '/')) := by
    rintro ⟨hd, hor⟩
    rcases hor with hor | hor
    · rw [hlen] at hor; omega
    · match l, hne, h1, hd, hor, g0 with
      | [c], _, h1, hd, _, _ =>
        simp at hd
        exact h1 (by rw [hd])
      | c :: d :: u, _, _, _, hor, g0 => exact g0 1 (by simp) hor
  have c3 : ¬ ((l ++ ['/', '.', 'g', 'i', 't']).getD 0 'x' = '.' ∧
      (l ++ ['/', '.', 'g', 'i', 't']).getD (0 + 1) 'x' = '.' ∧
      (0 + 2 = (l ++ ['/', '.', 'g', 'i', 't']).length ∨
        (l ++ ['/', '.', 'g', 'i', 't']).getD (0 + 2) 'x' = '/')) := by
    rintro ⟨hd, hd1, hor⟩
    rcases hor with hor | hor
    · rw [hlen] at hor; omega
    · match l, hne, h1, h2, hd, hd1, hor, g0 with
      | [c], _, h1, _, hd, _, _, _ =>
        simp at hd
        exact h1 (by rw [hd])
      | [c, d], _, _, h2, hd, hd1, _, _ =>
        simp at hd hd1
        exact h2 (by rw [hd, hd1])
      | c :: d :: e :: u, _, _, _, _, _, hor, g0 => exact g0 2 (by simp) hor
  rw [cleanLoop_elem _ _ 0 _ _ (by rw [hlen]; omega) (g0 0 hpos) c2 c3, e1]
  simp only [List.length_nil, ne_eq, not_true_eq_false, if_false, List.nil_append, Nat.zero_add]
  rw [cleanLoop_slash _ _ _ l.length _ _ (by rw [hlen]; omega) (by simpa using gk 0)]
  rw [cleanLoop_elem _ _ (l.length + 1) _ _ (by rw [hlen]; omega)
    (by rw [gk 1]; decide)
    (by rw [gk 1, show l.length + 1 + 1 = l.length + 2 from rfl, gk 2, hlen]
        simp)
    (by rw [gk 1, show l.length + 1 + 1 = l.length + 2 from rfl, gk 2]
        simp), e2]
  rw [cleanLoop_done _ _ _ _ _ _ (by rw [hlen]; simp)]
  have : l.length ≠ 0 := by omega
  simp [this]

/-- For a name that is not empty, holds no slash and is neither `.` nor `..`,
`path.Join(name, ".git")` is the name followed by `/.git`. -/
theorem pathJoin_plain_name (name : String) (hne : name ≠ "") (hs : '/' ∉ name.data)
    (h1 : name ≠ ".") (h2 : name ≠ "..") :
    pathJoin name ".git" = name ++ "/.git" := by
  have hl : name.data ≠ [] := fun hc => hne (String.ext hc)
  have hd : (name ++ "/" ++ ".git").data = name.data ++ ['/', '.', 'g', 'i', 't'] := by
    simp [String.data_append]
  have hp : name ++ "/" ++ ".git" ≠ "" := by
    intro hc
    have := congrArg String.data hc
    rw [hd] at this
    simp at this
  have hr : (name.data ++ ['/', '.', 'g', 'i', 't']).head? ≠ some '/' := by
    cases hn : name.data with
    | nil => exact absurd hn hl
    | cons c t =>
      rw [hn] at hs
      simp only [List.mem_cons, not_or] at hs
      simpa using fun h => hs.1 h.symm
  have hcl := cleanLoop_plain name.data hl hs
    (fun hc => h1 (String.ext hc)) (fun hc => h2 (String.ext hc))
  simp only [pathJoin, hne, ne_eq, not_false_eq_true, if_true, pathClean, hp, if_false, hd]
  simp only [hr, decide_False, Bool.false_eq_true, if_false, List.length_append, List.length_cons,
    List.length_nil]
  rw [hcl]
  simp
  apply String.ext
  simp [String.data_append]

/-! ## `repoIsCloned`, one lemma per path through the function -/

theorem repoIsCloned_gitDir_dir (fs : FileSystem) (name : String) (info : FileInfo)
    (h : fs (pathJoin name ".git") = .ok info) (hd : info.IsDir = true) :
    repoIsCloned fs name =
      { isCloned := true, err := none, statted := [pathJoin name ".git"] } := by
  simp [repoIsCloned, osStat, h, hd]

theorem repoIsCloned_gitDir_file (fs : FileSystem) (name : String) (info : FileInfo)
    (h : fs (pathJoin name ".git") = .ok info) (hd : info.IsDir = false) :
    repoIsCloned fs name =
      { isCloned := false,
        err := some (.errorString
          ("Git-dir path exists but is not a directory: " ++ name ++ "/.git")),
        statted := [pathJoin name ".git"] } := by
  simp [repoIsCloned, osStat, h, hd]

theorem repoIsCloned_gitDir_fails (fs : FileSystem) (name : String) (e : Errno)
    (h : fs (pathJoin name ".git") = .error e) (he : e ≠ ENOENT) :
    repoIsCloned fs name =
      { isCloned := false, err := some (.pathError "stat" (pathJoin name ".git") e),
        statted := [pathJoin name ".git"] } := by
  simp [repoIsCloned, osStat, h, osIsNotExist, he]

theorem repoIsCloned_dir_exists (fs : FileSystem) (name : String) (info : FileInfo)
    (h : fs (pathJoin name ".git") = .error ENOENT) (hn : fs name = .ok info) :
    repoIsCloned fs name =
      { isCloned := false,
        err := some (.errorString
          ("Clone directory already exists but is not a git repository: " ++ name)),
        statted := [pathJoin name ".git", name] } := by
  simp [repoIsCloned, osStat, h, hn, osIsNotExist]

theorem repoIsCloned_absent (fs : FileSystem) (name : String)
    (h : fs (pathJoin name ".git") = .error ENOENT) (hn : fs name = .error ENOENT) :
    repoIsCloned fs name =
      { isCloned := false, err := none, statted := [pathJoin name ".git", name] } := by
  simp [repoIsCloned, osStat, h, hn, osIsNotExist]

theorem repoIsCloned_dir_fails (fs : FileSystem) (name : String) (e : Errno)
    (h : fs (pathJoin name ".git") = .error ENOENT) (hn : fs name = .error e)
    (he : e ≠ ENOENT) :
    repoIsCloned fs name =
      { isCloned := false, err := some (.pathError "stat" name e),
        statted := [pathJoin name ".git", name] } := by
  simp [repoIsCloned, osStat, h, hn, osIsNotExist, he]

/-- The six paths through `repoIsCloned` are all there are. -/
theorem repoIsCloned_cases (fs : FileSystem) (name : String) :
    (∃ info, fs (pathJoin name ".git") = .ok info ∧ info.IsDir = true) ∨
    (∃ info, fs (pathJoin name ".git") = .ok info ∧ info.IsDir = false) ∨
    (∃ e, fs (pathJoin name ".git") = .error e ∧ e ≠ ENOENT) ∨
    (fs (pathJoin name ".git") = .error ENOENT ∧ ∃ info, fs name = .ok info) ∨
    (fs (pathJoin name ".git") = .error ENOENT ∧ fs name = .error ENOENT) ∨
    (fs (pathJoin name ".git") = .error ENOENT ∧ ∃ e, fs name = .error e ∧ e ≠ ENOENT) := by
  cases h : fs (pathJoin name ".git") with
  | ok info =>
    cases hd : info.IsDir
    · exact Or.inr (Or.inl ⟨info, rfl, hd⟩)
    · exact Or.inl ⟨info, rfl, hd⟩
  | error e =>
    by_cases he : e = ENOENT
    · subst he
      cases hn : fs name with
      | ok info => exact Or.inr (Or.inr (Or.inr (Or.inl ⟨rfl, info, rfl⟩)))
      | error e2 =>
        by_cases he2 : e2 = ENOENT
        · subst he2
          exact Or.inr (Or.inr (Or.inr (Or.inr (Or.inl ⟨rfl, rfl⟩))))
        · exact Or.inr (Or.inr (Or.inr (Or.inr (Or.inr ⟨rfl, e2, rfl, he2⟩))))
    · exact Or.inr (Or.inr (Or.inl ⟨e, rfl, he⟩))

/-- The first path `repoIsCloned` stats is the git-dir path, which for a plain
name is the name followed by `/.git`. -/
theorem repoIsCloned_stats_gitDir_first (fs : FileSystem) (name : String) :
    (repoIsCloned fs name).statted.head? = some (pathJoin name ".git") ∧
    (name ≠ "" → '/' ∉ name.data → name ≠ "." → name ≠ ".." →
      (repoIsCloned fs name).statted.head? = some (name ++ "/.git")) := by
  have key : (repoIsCloned fs name).statted.head? = some (pathJoin name ".git") := by
    rcases repoIsCloned_cases fs name with
      ⟨i, h, hd⟩ | ⟨i, h, hd⟩ | ⟨e, h, he⟩ | ⟨h, i, hn⟩ | ⟨h, hn⟩ | ⟨h, e, hn, he⟩
    · simp [repoIsCloned_gitDir_dir fs name i h hd]
    · simp [repoIsCloned_gitDir_file fs name i h hd]
    · simp [repoIsCloned_gitDir_fails fs name e h he]
    · simp [repoIsCloned_dir_exists fs name i h hn]
    · simp [repoIsCloned_absent fs name h hn]
    · simp [repoIsCloned_dir_fails fs name e h hn he]
  refine ⟨key, fun h0 h1 h2 h3 => ?_⟩
  rw [key, pathJoin_plain_name name h0 h1 h2 h3]

theorem infix_of_append_right (a b : String) : b.data <:+: (a ++ b).data := by
  rw [String.data_append]
  exact (List.suffix_append a.data b.data).isInfix

/-! ## The claims about `repoIsCloned` -/

/-- C1: `repoIsCloned fs name` returns `(false, nil)` if and only if the stat of
the git-dir path `path.Join(name, ".git")` fails with not-found (`ENOENT`) and
the stat of `name` fails with not-found as well; so it does not return
`(false, nil)` when `name` or the git-dir path exists. -/
theorem repoIsCloned_false_nil_iff (fs : FileSystem) (name : String) :
    (((repoIsCloned fs name).isCloned = false ∧ (repoIsCloned fs name).err = none) ↔
      (fs (pathJoin name ".git") = .error ENOENT ∧ fs name = .error ENOENT)) ∧
    (((∃ info, fs name = .ok info) ∨ (∃ info, fs (pathJoin name ".git") = .ok info)) →
      ¬ ((repoIsCloned fs name).isCloned = false ∧ (repoIsCloned fs name).err = none)) := by
  have key : ((repoIsCloned fs name).isCloned = false ∧ (repoIsCloned fs name).err = none) ↔
      (fs (pathJoin name ".git") = .error ENOENT ∧ fs name = .error ENOENT) := by
    rcases repoIsCloned_cases fs name with
      ⟨i, h, hd⟩ | ⟨i, h, hd⟩ | ⟨e, h, he⟩ | ⟨h, i, hn⟩ | ⟨h, hn⟩ | ⟨h, e, hn, he⟩
    · simp [repoIsCloned_gitDir_dir fs name i h hd, h]
    · simp [repoIsCloned_gitDir_file fs name i h hd, h]
    · simp [repoIsCloned_gitDir_fails fs name e h he, h, he]
    · simp [repoIsCloned_dir_exists fs name i h hn, hn]
    · simp [repoIsCloned_absent fs name h hn, h, hn]
    · simp [repoIsCloned_dir_fails fs name e h hn he, hn, he]
  refine ⟨key, ?_⟩
  rintro (⟨i, hi⟩ | ⟨i, hi⟩) hc
  · have := (key.mp hc).2
    rw [hi] at this
    cases this
  · have := (key.mp hc).1
    rw [hi] at this
    cases this

/-- An instance of C1: with nothing on disk the result is `(false, nil)`, and
with a plain directory `myRepo` it is not. -/
theorem repoIsCloned_false_nil_iff_witness :
    ((repoIsCloned (fsOf [] []) "myRepo").isCloned = false ∧
      (repoIsCloned (fsOf [] []) "myRepo").err = none) ∧
    ¬ ((repoIsCloned (fsOf ["myRepo"] []) "myRepo").isCloned = false ∧
      (repoIsCloned (fsOf ["myRepo"] []) "myRepo").err = none) :=
  ⟨(repoIsCloned_false_nil_iff (fsOf [] []) "myRepo").1.mpr ⟨by decide, by decide⟩,
   (repoIsCloned_false_nil_iff (fsOf ["myRepo"] []) "myRepo").2
     (Or.inl ⟨{ IsDir := true }, by decide⟩)⟩

/-- C2: `repoIsCloned fs name` returns `true` exactly when the stat of the
git-dir path `path.Join(name, ".git")` succeeds and reports a directory; then
the error is `nil` and the git-dir path is the only path that was statted. -/
theorem repoIsCloned_true_iff (fs : FileSystem) (name : String) :
    ((repoIsCloned fs name).isCloned = true ↔
      ∃ info, fs (pathJoin name ".git") = .ok info ∧ info.IsDir = true) ∧
    ((repoIsCloned fs name).isCloned = true →
      (repoIsCloned fs name).err = none ∧
      (repoIsCloned fs name).statted = [pathJoin name ".git"]) := by
  rcases repoIsCloned_cases fs name with
    ⟨i, h, hd⟩ | ⟨i, h, hd⟩ | ⟨e, h, he⟩ | ⟨h, i, hn⟩ | ⟨h, hn⟩ | ⟨h, e, hn, he⟩
  · simp [repoIsCloned_gitDir_dir fs name i h hd, h, hd]
  · simp [repoIsCloned_gitDir_file fs name i h hd, h, hd]
  · simp [repoIsCloned_gitDir_fails fs name e h he, h]
  · simp [repoIsCloned_dir_exists fs name i h hn, h]
  · simp [repoIsCloned_absent fs name h hn, h]
  · simp [repoIsCloned_dir_fails fs name e h hn he, h]

/-- An instance of C2: with `myRepo/.git` a directory the result is
`(true, nil)` after one stat, and with `myRepo/.git` a plain file it is not
`true`. -/
theorem repoIsCloned_true_iff_witness :
    ((repoIsCloned (fsOf ["myRepo", "myRepo/.git"] []) "myRepo").isCloned = true ∧
      (repoIsCloned (fsOf ["myRepo", "myRepo/.git"] []) "myRepo").err = none ∧
      (repoIsCloned (fsOf ["myRepo", "myRepo/.git"] []) "myRepo").statted = ["myRepo/.git"]) ∧
    ¬ (repoIsCloned (fsOf ["myRepo"] ["myRepo/.git"]) "myRepo").isCloned = true :=
  have h := (repoIsCloned_true_iff (fsOf ["myRepo", "myRepo/.git"] []) "myRepo").1.mpr
    ⟨{ IsDir := true }, by decide, rfl⟩
  ⟨⟨h, (repoIsCloned_true_iff (fsOf ["myRepo", "myRepo/.git"] []) "myRepo").2 h⟩,
   fun hc => by
    obtain ⟨i, hi, hd⟩ :=
      (repoIsCloned_true_iff (fsOf ["myRepo"] ["myRepo/.git"]) "myRepo").1.mp hc
    have h2 : fsOf ["myRepo"] ["myRepo/.git"] (pathJoin "myRepo" ".git") =
        .ok { IsDir := false } := by decide
    rw [h2] at hi
    cases hi
    cases hd⟩

/-- C3: when the stat of the git-dir path `path.Join(name, ".git")` succeeds
and reports a non-directory, `repoIsCloned fs name` returns `false` with an
error that is not `nil`, is not a not-exist error, and whose message contains
`name` followed by `/.git`; the git-dir path is the only path statted. -/
theorem repoIsCloned_gitDir_not_directory (fs : FileSystem) (name : String) (info : FileInfo)
    (h : fs (pathJoin name ".git") = .ok info) (hd : info.IsDir = false) :
    (repoIsCloned fs name).isCloned = false ∧
    (∃ err, (repoIsCloned fs name).err = some err ∧
      osIsNotExist (some err) = false ∧
      (name ++ "/.git").data <:+: err.Error.data) ∧
    (repoIsCloned fs name).statted = [pathJoin name ".git"] := by
  rw [repoIsCloned_gitDir_file fs name info h hd]
  refine ⟨rfl, ⟨_, rfl, rfl, ?_⟩, rfl⟩
  show (name ++ "/.git").data <:+:
    ("Git-dir path exists but is not a directory: " ++ name ++ "/.git").data
  rw [String.append_assoc]
  exact infix_of_append_right _ _

/-- An instance of C3: `myRepo/.git` is a plain file inside the directory
`myRepo`. -/
theorem repoIsCloned_gitDir_not_directory_witness :
    (repoIsCloned (fsOf ["myRepo"] ["myRepo/.git"]) "myRepo").isCloned = false ∧
    (∃ err, (repoIsCloned (fsOf ["myRepo"] ["myRepo/.git"]) "myRepo").err = some err ∧
      osIsNotExist (some err) = false ∧
      ("myRepo" ++ "/.git").data <:+: err.Error.data) ∧
    (repoIsCloned (fsOf ["myRepo"] ["myRepo/.git"]) "myRepo").statted =
      [pathJoin "myRepo" ".git"] :=
  repoIsCloned_gitDir_not_directory (fsOf ["myRepo"] ["myRepo/.git"]) "myRepo"
    { IsDir := false } (by decide) rfl

/-- C4: when the stat of the git-dir path `path.Join(name, ".git")` fails with
not-found and the stat of `name` succeeds, whether `name` is a directory or a
plain file, `repoIsCloned fs name` returns `false` with an error that is not
`nil`, is not a not-exist error, and whose message is
`Clone directory already exists but is not a git repository: ` followed by
`name`. -/
theorem repoIsCloned_exists_without_gitDir (fs : FileSystem) (name : String) (info : FileInfo)
    (h : fs (pathJoin name ".git") = .error ENOENT) (hn : fs name = .ok info) :
    (repoIsCloned fs name).isCloned = false ∧
    ∃ err, (repoIsCloned fs name).err = some err ∧
      osIsNotExist (some err) = false ∧
      err.Error = "Clone directory already exists but is not a git repository: " ++ name ∧
      name.data <:+: err.Error.data := by
  rw [repoIsCloned_dir_exists fs name info h hn]
  exact ⟨rfl, _, rfl, rfl, rfl, infix_of_append_right _ _⟩

/-- An instance of C4, `myRepo` being a directory, and one with `myRepo` a plain
file. -/
theorem repoIsCloned_exists_without_gitDir_witness :
    ((repoIsCloned (fsOf ["myRepo"] []) "myRepo").isCloned = false ∧
      ∃ err, (repoIsCloned (fsOf ["myRepo"] []) "myRepo").err = some err ∧
        osIsNotExist (some err) = false ∧
        err.Error = "Clone directory already exists but is not a git repository: " ++ "myRepo" ∧
        "myRepo".data <:+: err.Error.data) ∧
    ((repoIsCloned (fsOf [] ["myRepo"]) "myRepo").isCloned = false ∧
      ∃ err, (repoIsCloned (fsOf [] ["myRepo"]) "myRepo").err = some err ∧
        osIsNotExist (some err) = false ∧
        err.Error = "Clone directory already exists but is not a git repository: " ++ "myRepo" ∧
        "myRepo".data <:+: err.Error.data) :=
  ⟨repoIsCloned_exists_without_gitDir (fsOf ["myRepo"] []) "myRepo" { IsDir := true }
    (by decide) (by decide),
   repoIsCloned_exists_without_gitDir (fsOf [] ["myRepo"]) "myRepo" { IsDir := false }
    (by decide) (by decide)⟩

/-- C5: if the stat of the git-dir path fails with an error other than
not-found, or it fails with not-found and the stat of `name` then fails with
an error other than not-found, `repoIsCloned fs name` returns `false` with
exactly that stat error (the `*PathError` that `os.Stat` built); and the error
it returns is in no case a not-exist error. -/
theorem repoIsCloned_propagates_stat_error (fs : FileSystem) (name : String) :
    (∀ e, fs (pathJoin name ".git") = .error e → e ≠ ENOENT →
      osStat fs (pathJoin name ".git") = .error (.pathError "stat" (pathJoin name ".git") e) ∧
      (repoIsCloned fs name).isCloned = false ∧
      (repoIsCloned fs name).err = some (.pathError "stat" (pathJoin name ".git") e)) ∧
    (∀ e, fs (pathJoin name ".git") = .error ENOENT → fs name = .error e → e ≠ ENOENT →
      osStat fs name = .error (.pathError "stat" name e) ∧
      (repoIsCloned fs name).isCloned = false ∧
      (repoIsCloned fs name).err = some (.pathError "stat" name e)) ∧
    (∀ err, (repoIsCloned fs name).err = some err → osIsNotExist (some err) = false) := by
  refine ⟨?_, ?_, ?_⟩
  · intro e h he
    simp [repoIsCloned_gitDir_fails fs name e h he, osStat, h]
  · intro e h hn he
    simp [repoIsCloned_dir_fails fs name e h hn he, osStat, hn]
  · intro err herr
    rcases repoIsCloned_cases fs name with
      ⟨i, h, hd⟩ | ⟨i, h, hd⟩ | ⟨e, h, he⟩ | ⟨h, i, hn⟩ | ⟨h, hn⟩ | ⟨h, e, hn, he⟩
    · simp [repoIsCloned_gitDir_dir fs name i h hd] at herr
    · simp [repoIsCloned_gitDir_file fs name i h hd] at herr
      subst herr; rfl
    · simp [repoIsCloned_gitDir_fails fs name e h he] at herr
      subst herr; simp [osIsNotExist, he]
    · simp [repoIsCloned_dir_exists fs name i h hn] at herr
      subst herr; rfl
    · simp [repoIsCloned_absent fs name h hn] at herr
    · simp [repoIsCloned_dir_fails fs name e h hn he] at herr
      subst herr; simp [osIsNotExist, he]

/-- An instance of C5: permission denied on `myRepo/.git`, and permission denied
on `myRepo` after `myRepo/.git` was not found. -/
theorem repoIsCloned_propagates_stat_error_witness :
    (repoIsCloned (fun _ => .error EACCES) "myRepo").err =
      some (.pathError "stat" "myRepo/.git" EACCES) ∧
    (repoIsCloned (fun p => if p = "myRepo" then .error EACCES else .error ENOENT) "myRepo").err =
      some (.pathError "stat" "myRepo" EACCES) :=
  ⟨((repoIsCloned_propagates_stat_error (fun _ => .error EACCES) "myRepo").1 EACCES
      rfl (by decide)).2.2,
   ((repoIsCloned_propagates_stat_error
      (fun p => if p = "myRepo" then .error EACCES else .error ENOENT) "myRepo").2.1 EACCES
      (by decide) (by decide) (by decide)).2.2⟩

/-! ## The loop of `main` -/

theorem mainLoop_named (fs : FileSystem) (names : List String) :
    ∀ (repos : List Repository) (log : List String),
      repos.map Repository.Name = names.map some →
      mainLoop fs repos log =
        { log := log ++ names.flatMap (reportLines fs), panicked := false } := by
  induction names with
  | nil =>
    intro repos log h
    cases repos with
    | nil => simp [mainLoop]
    | cons r rs => simp at h
  | cons n ns ih =>
    intro repos log h
    cases repos with
    | nil => simp at h
    | cons r rs =>
      simp only [List.map_cons, List.cons.injEq] at h
      obtain ⟨hr, hrs⟩ := h
      simp only [mainLoop, hr]
      rw [ih rs _ hrs]
      simp only [List.flatMap_cons, reportLines, SyncAction.ofInspection]
      cases herr : (repoIsCloned fs n).err with
      | some err => simp [SyncAction.report]
      | none =>
        cases hc : (repoIsCloned fs n).isCloned <;> simp [SyncAction.report]

/-- The three kinds of report are told apart by their text, and an error report
determines the error message. -/
theorem SyncAction.report_injective (a b : SyncAction) (h : a.report = b.report) :
    (a = .Clone ↔ b = .Clone) ∧ (a = .Fetch ↔ b = .Fetch) ∧
    (∀ x y, a = .Error x → b = .Error y → x.Error = y.Error) := by
  have pre : ∀ e : GoError, (SyncAction.Error e).report.data =
      "  error: ".data ++ e.Error.data := fun e => String.data_append _ _
  have hd := congrArg String.data h
  cases a <;> cases b
  · simp
  · exact absurd h (by decide)
  · rw [pre] at hd
    exact absurd (congrArg (fun l => l.take 3) hd) (by simp [SyncAction.report])
  · exact absurd h (by decide)
  · simp
  · rw [pre] at hd
    exact absurd (congrArg (fun l => l.take 3) hd) (by simp [SyncAction.report])
  · rw [pre] at hd
    exact absurd (congrArg (fun l => l.take 3) hd) (by simp [SyncAction.report])
  · rw [pre] at hd
    exact absurd (congrArg (fun l => l.take 3) hd) (by simp [SyncAction.report])
  · refine ⟨by simp, by simp, ?_⟩
    intro x y hx hy
    cases hx; cases hy
    rw [pre, pre] at hd
    exact String.ext (List.append_cancel_left hd)

/-- C6: for every sequence of repositories that carry a name and every
filesystem state, the loop of `main` ends without a panic having logged, for
each repository in the order received, its name followed by one report, the
report being that of the decision the specification assigns to `repoIsCloned`
of that repository alone: fetch for `(true, nil)`, clone for `(false, nil)`,
error for an error that is not `nil`.  For `["a", "b"]` with `a/.git` a
directory and `b` absent the reports are fetch for `a` and clone for `b`. -/
theorem mainLoop_reports_each_decision (fs : FileSystem) (repos : List Repository)
    (names : List String) (h : repos.map Repository.Name = names.map some) :
    mainLoop fs repos [] =
      { log := names.flatMap
          (fun n => [n, (SyncAction.ofInspection (repoIsCloned fs n)).report]),
        panicked := false } ∧
    (∀ n, ((repoIsCloned fs n).isCloned = true ∧ (repoIsCloned fs n).err = none →
        SyncAction.ofInspection (repoIsCloned fs n) = .Fetch) ∧
      ((repoIsCloned fs n).isCloned = false ∧ (repoIsCloned fs n).err = none →
        SyncAction.ofInspection (repoIsCloned fs n) = .Clone) ∧
      (∀ e, (repoIsCloned fs n).err = some e →
        SyncAction.ofInspection (repoIsCloned fs n) = .Error e)) ∧
    (∀ (fsAB : FileSystem) (ra rb : Repository),
      ra.Name = some "a" → rb.Name = some "b" →
      fsAB.isDirectory "a/.git" → fsAB "b/.git" = .error ENOENT → fsAB "b" = .error ENOENT →
      mainLoop fsAB [ra, rb] [] =
        { log := ["a", SyncAction.report .Fetch, "b", SyncAction.report .Clone],
          panicked := false }) := by
  refine ⟨?_, ?_, ?_⟩
  · have := mainLoop_named fs names repos [] h
    simpa [reportLines] using this
  · intro n
    refine ⟨?_, ?_, ?_⟩
    · rintro ⟨h1, h2⟩
      simp [SyncAction.ofInspection, h1, h2]
    · rintro ⟨h1, h2⟩
      simp [SyncAction.ofInspection, h1, h2]
    · intro e he
      simp [SyncAction.ofInspection, he]
  · intro fsAB ra rb ha hb hdir hb1 hb2
    obtain ⟨info, hi, hd⟩ := hdir
    have ja : pathJoin "a" ".git" = "a/.git" := by decide
    have jb : pathJoin "b" ".git" = "b/.git" := by decide
    have e1 := repoIsCloned_gitDir_dir fsAB "a" info (by rw [ja]; exact hi) hd
    have e2 := repoIsCloned_absent fsAB "b" (by rw [jb]; exact hb1) hb2
    have := mainLoop_named fsAB ["a", "b"] [ra, rb] [] (by simp [ha, hb])
    rw [this]
    simp [reportLines, e1, e2, SyncAction.ofInspection]

/-- An instance of C6: three repositories, the second of which is in conflict;
the third is still reported. -/
theorem mainLoop_reports_each_decision_witness :
    mainLoop (fsOf ["a", "a/.git", "c"] [])
        [{ Name := some "a" }, { Name := some "c" }, { Name := some "b" }] [] =
      { log := ["a", "  would fetch",
          "c", "  error: Clone directory already exists but is not a git repository: c",
          "b", "  would clone"],
        panicked := false } := by
  have h := (mainLoop_reports_each_decision (fsOf ["a", "a/.git", "c"] [])
    [{ Name := some "a" }, { Name := some "c" }, { Name := some "b" }] ["a", "c", "b"] rfl).1
  rw [h]
  decide

/-! ## `getRepos` -/

/-- C7, the code at a listing of two pages: `getRepos` makes one call and
returns the first page with its response, which still points to page 2; the
repository on page 2 is not in the result. -/
theorem getRepos_returns_first_page_only :
    getRepos "myAwesomeOrg" (twoPageService { Name := some "a" } { Name := some "b" }) =
      ([{ Name := some "a" }], some { NextPage := 2, LastPage := 2 }, none) ∧
    ((twoPageService { Name := some "a" } { Name := some "b" }).ListByOrg "myAwesomeOrg"
      { ListOptions := { Page := 2, PerPage := 50 } }).1 = [{ Name := some "b" }] ∧
    (getRepos "myAwesomeOrg" (twoPageService { Name := some "a" } { Name := some "b" })).1 ≠
      [{ Name := some "a" }, { Name := some "b" }] := by
  decide

/-- C8: for every organization name and every repository service, `getRepos`
returns exactly what `ListByOrg` returns when called with that name and with
options whose `PerPage` is 50 and whose other fields are zero: repositories,
response and error alike, whether or not the error is `nil`. -/
theorem getRepos_proxies_ListByOrg (org : String) (repoService : RepositoriesService) :
    getRepos org repoService =
      repoService.ListByOrg org
        { Type_ := "", ListOptions := { Page := 0, PerPage := 50 } } := rfl

/-! ## `orgName` -/

/-- C9: for every argument supplied on the command line, which is to say for
every value of the argument variable that is not empty (the empty value is the
state without an argument), `orgName` returns exactly that argument, whatever
`os.Getwd` gives (a failure included); without an argument it returns
`path.Base` of the working directory. -/
theorem orgName_argument_or_cwd_base (arg : String) (h : arg ≠ "") :
    (∀ getwd : Except GoError String, orgName arg getwd = .ok arg) ∧
    (∀ cwd : String, orgName "" (.ok cwd) = .ok (pathBase cwd)) := by
  have hpos : arg.length > 0 :=
    List.length_pos.mpr (fun hc => h (String.ext hc))
  refine ⟨fun getwd => ?_, fun cwd => ?_⟩
  · simp [orgName, hpos]
  · simp [orgName]

/-- An instance of C9: the argument `foo` in the directory `/home/u/octosync`,
the same argument when the working directory cannot be read, and no argument
in that directory. -/
theorem orgName_argument_or_cwd_base_witness :
    orgName "foo" (.ok "/home/u/octosync") = .ok "foo" ∧
    orgName "foo" (.error (.pathError "getwd" "." ENOENT)) = .ok "foo" ∧
    orgName "" (.ok "/home/u/octosync") = .ok "octosync" :=
  ⟨(orgName_argument_or_cwd_base "foo" (by decide)).1 _,
   (orgName_argument_or_cwd_base "foo" (by decide)).1 _,
   ((orgName_argument_or_cwd_base "foo" (by decide)).2 _).trans (by decide)⟩

/-! ## `getGithubToken` -/

/-- C10 as stated fails at the empty value: with `GITHUB_TOKEN` set to the empty
string, `getGithubToken` returns an error that is not `nil`. -/
theorem getGithubToken_empty_value_counterexample :
    (getGithubToken (fun k => if k = "GITHUB_TOKEN" then some "" else none)).2 ≠ none ∧
    ¬ (∀ (env : Environ) (v : String), env "GITHUB_TOKEN" = some v →
        getGithubToken env = (v, none)) := by
  refine ⟨by decide, fun h => ?_⟩
  have := h (fun k => if k = "GITHUB_TOKEN" then some "" else none) "" (by decide)
  revert this
  decide

/-- C10, amended: for every value of `GITHUB_TOKEN` that is not empty
`getGithubToken` returns that value with a `nil` error; when the variable is
unset, or set to the empty string, it returns the empty string with an error
whose message contains `GITHUB_TOKEN`. -/
theorem getGithubToken_value_or_error (env : Environ) :
    (∀ v, env "GITHUB_TOKEN" = some v → v ≠ "" → getGithubToken env = (v, none)) ∧
    (env "GITHUB_TOKEN" = none ∨ env "GITHUB_TOKEN" = some "" →
      (getGithubToken env).1 = "" ∧
      ∃ err, (getGithubToken env).2 = some err ∧
        "GITHUB_TOKEN".data <:+: err.Error.data) := by
  refine ⟨fun v hv hne => ?_, fun h => ?_⟩
  · simp [getGithubToken, osGetenv, githubTokenEnvVar, hv, hne]
  · have hval : osGetenv env githubTokenEnvVar = "" := by
      rcases h with h | h <;> simp [osGetenv, githubTokenEnvVar, h]
    simp only [getGithubToken, hval]
    refine ⟨rfl, _, rfl, ?_⟩
    exact ⟨"You must set the ".data, " variable with a Github access token".data, by decide⟩

/-- An instance of amended C10: the token `foobarbaz`, and the variable unset. -/
theorem getGithubToken_value_or_error_witness :
    getGithubToken (fun k => if k = "GITHUB_TOKEN" then some "foobarbaz" else none) =
      ("foobarbaz", none) ∧
    ∃ err, (getGithubToken (fun _ => none)).2 = some err ∧
      "GITHUB_TOKEN".data <:+: err.Error.data :=
  ⟨(getGithubToken_value_or_error _).1 "foobarbaz" (by decide) (by decide),
   ((getGithubToken_value_or_error (fun _ => none)).2 (Or.inl rfl)).2⟩

/-! ## Values of the path functions -/

theorem pathJoin_myRepo : pathJoin "myRepo" ".git" = "myRepo/.git" := by decide

theorem pathJoin_cleans : pathJoin "a/../b//c/." ".git" = "b/c/.git" := by decide

theorem pathClean_rooted_dotdot : pathClean "/../a/b/../../.." = "/" := by decide

theorem pathClean_leading_dotdot : pathClean "../../a/.." = "../.." := by decide

theorem pathBase_values :
    pathBase "/home/u/octosync" = "octosync" ∧ pathBase "/home/u/octosync//" = "octosync" ∧
    pathBase "///" = "/" ∧ pathBase "" = "." := by decide

end Octosync
